import Mathlib

/-!
Shallow embedding of `src/partition/partitioner.cpp` (osrm-backend partitioner
translation unit) together with spec-modelled stubs for the repository headers
that are not part of the provided sources (`storage/io.hpp` FileReader,
`partition/recursive_bisection.hpp`, `partition/bisection_graph.hpp`).

Machine integers (NodeID, EdgeID, std::uint32_t) are modelled as `Nat`; all the
bit manipulation in the source stays below `2 ^ 32`, which is proved where it
matters. `std::unordered_map` is modelled as an association list with
insert-if-absent semantics (`std::unordered_map::insert` does not overwrite an
existing key).
-/

namespace OsrmPartition

/-- `SPECIAL_NODEID` from `util/typedefs.hpp`: `std::numeric_limits<unsigned>::max()`. -/
def SPECIAL_NODEID : Nat := 4294967295

/-- `NodeBasedGraphToEdgeBasedGraphMapping::NodeBasedNodes` (partitioner.cpp lines 97-100). -/
structure NodeBasedNodes where
  u : Nat
  v : Nat
deriving DecidableEq, Repr

/-- One `(u, v, head, tail)` record of the mapping file (partitioner.cpp lines 84-94). -/
structure MappingRecord where
  u : Nat
  v : Nat
  head : Nat
  tail : Nat
deriving DecidableEq, Repr

/-- The two lookup tables of `NodeBasedGraphToEdgeBasedGraphMapping`
(partitioner.cpp lines 116-118), modelled as association lists with unique keys. -/
structure Mapping where
  heads : List (Nat × NodeBasedNodes)
  tails : List (Nat × NodeBasedNodes)
deriving DecidableEq, Repr

/-- `std::unordered_map::insert`: inserts `(k, v)` only when `k` is not already a key;
an existing entry for `k` is kept unchanged. -/
def mapInsert (m : List (Nat × NodeBasedNodes)) (k : Nat) (v : NodeBasedNodes) :
    List (Nat × NodeBasedNodes) :=
  if (m.lookup k).isSome then m else (k, v) :: m

/-- Loop body of the mapping constructor (partitioner.cpp lines 84-94):
`heads.insert({head, {u, v}}); tails.insert({tail, {u, v}});`. -/
def insertRecord (m : Mapping) (r : MappingRecord) : Mapping :=
  { heads := mapInsert m.heads r.head ⟨r.u, r.v⟩
    tails := mapInsert m.tails r.tail ⟨r.u, r.v⟩ }

/-- The mapping constructor's read loop over the `count` records of the file
(partitioner.cpp lines 84-94), starting from two empty tables. -/
def loadRecords (rs : List MappingRecord) : Mapping :=
  rs.foldl insertRecord ⟨[], []⟩

/-- `NodeBasedGraphToEdgeBasedGraphMapping::Lookup` (partitioner.cpp lines 102-114):
checks `heads` first, then `tails`; on a double miss the code runs
`BOOST_ASSERT(false)` (a no-op unless assertions are enabled) and returns the
sentinel pair `{SPECIAL_NODEID, SPECIAL_NODEID}`. -/
def Mapping.Lookup (m : Mapping) (edge_based_node : Nat) : NodeBasedNodes :=
  match m.heads.lookup edge_based_node with
  | some p => p
  | none =>
    match m.tails.lookup edge_based_node with
    | some p => p
    | none => ⟨SPECIAL_NODEID, SPECIAL_NODEID⟩

/-- Whether `Lookup` reaches the `BOOST_ASSERT(false)` line (partitioner.cpp line 112):
true exactly when the id misses both tables. -/
def Mapping.lookupAsserts (m : Mapping) (edge_based_node : Nat) : Bool :=
  (m.heads.lookup edge_based_node).isNone && (m.tails.lookup edge_based_node).isNone

/-- Errors raised by `storage::io::FileReader`.
Modelled from the spec: `storage/io.hpp` is not under `src/`; section 7 of the spec
gives the taxonomy (bad fingerprint, truncated file / count mismatch). -/
inductive LoadError where
  | badFingerprint
  | truncated
deriving DecidableEq, Repr

/-- A mapping file as seen through `storage::io::FileReader`.
Modelled from the spec: `storage/io.hpp` is not under `src/`. The file carries a
fingerprint (modelled as a validity flag checked on open), a declared `uint64 count`,
and the sequence of records physically present after the header. -/
structure MappingFile where
  fingerprintOk : Bool
  count : Nat
  records : List MappingRecord

/-- `LoadNodeBasedGraphToEdgeBasedGraphMapping` (partitioner.cpp lines 121-129).
Modelled from the spec for the `FileReader` part: opening with
`FileReader::VerifyFingerprint` fails on a fingerprint mismatch, and reading past
the readable bytes (fewer than `count` records present) is a fatal truncation
error; on success the constructor consumes exactly `count` records. -/
def LoadNodeBasedGraphToEdgeBasedGraphMapping (f : MappingFile) :
    Except LoadError Mapping :=
  if f.fingerprintOk = false then .error .badFingerprint
  else if f.records.length < f.count then .error .truncated
  else .ok (loadRecords (f.records.take f.count))

/-- First record of the list whose `head` field is `e`, as the spec's
`heads[head] = (u, v)` table would retain it (insert keeps the first occurrence). -/
def firstWithHead : List MappingRecord → Nat → Option NodeBasedNodes
  | [], _ => none
  | r :: rs, e => if r.head = e then some ⟨r.u, r.v⟩ else firstWithHead rs e

/-- First record of the list whose `tail` field is `e`. -/
def firstWithTail : List MappingRecord → Nat → Option NodeBasedNodes
  | [], _ => none
  | r :: rs, e => if r.tail = e then some ⟨r.u, r.v⟩ else firstWithTail rs e

/-- Left-biased choice on `Option`, used to relate table lookups to file order. -/
def oOr : Option NodeBasedNodes → Option NodeBasedNodes → Option NodeBasedNodes
  | some a, _ => some a
  | none, b => b

theorem oOr_none (a : Option NodeBasedNodes) : oOr a none = a := by
  cases a <;> rfl

theorem oOr_assoc (a b c : Option NodeBasedNodes) :
    oOr (oOr a b) c = oOr a (oOr b c) := by
  cases a <;> cases b <;> rfl

theorem mapInsert_lookup (m : List (Nat × NodeBasedNodes)) (k e : Nat)
    (v : NodeBasedNodes) :
    (mapInsert m k v).lookup e = oOr (m.lookup e) (if e = k then some v else none) := by
  unfold mapInsert
  rcases h : m.lookup k with _ | w
  · simp only [h, Option.isSome_none, Bool.false_eq_true, if_false, List.lookup]
    by_cases he : e = k
    · subst he
      simp [h, oOr]
    · have hbe : (e == k) = false := by simp [he]
      simp only [List.lookup, hbe]
      rw [if_neg he, oOr_none]
  · simp only [h, Option.isSome_some, if_true]
    by_cases he : e = k
    · subst he
      simp [h, oOr]
    · simp [he, oOr_none]

theorem foldl_insertRecord_heads_lookup (rs : List MappingRecord) (m : Mapping) (e : Nat) :
    ((rs.foldl insertRecord m).heads).lookup e = oOr (m.heads.lookup e) (firstWithHead rs e) := by
  induction rs generalizing m with
  | nil => simp [firstWithHead, oOr_none]
  | cons r rs ih =>
    simp only [List.foldl_cons, ih, insertRecord, mapInsert_lookup, oOr_assoc]
    congr 1
    by_cases he : e = r.head
    · subst he
      simp [firstWithHead, oOr]
    · rw [if_neg he, firstWithHead, if_neg (Ne.symm he)]
      rfl

theorem foldl_insertRecord_tails_lookup (rs : List MappingRecord) (m : Mapping) (e : Nat) :
    ((rs.foldl insertRecord m).tails).lookup e = oOr (m.tails.lookup e) (firstWithTail rs e) := by
  induction rs generalizing m with
  | nil => simp [firstWithTail, oOr_none]
  | cons r rs ih =>
    simp only [List.foldl_cons, ih, insertRecord, mapInsert_lookup, oOr_assoc]
    congr 1
    by_cases he : e = r.tail
    · subst he
      simp [firstWithTail, oOr]
    · rw [if_neg he, firstWithTail, if_neg (Ne.symm he)]
      rfl

theorem firstWithHead_eq_none (rs : List MappingRecord) (e : Nat)
    (h : ∀ r ∈ rs, r.head ≠ e) : firstWithHead rs e = none := by
  induction rs with
  | nil => rfl
  | cons r rs ih =>
    simp only [firstWithHead, h r (List.mem_cons_self r rs), if_false]
    exact ih fun x hx => h x (List.mem_cons_of_mem r hx)

/-- `util::Coordinate`: fixed-point longitude/latitude (int32 each). -/
structure Coordinate where
  lon : Int
  lat : Int
deriving DecidableEq, Repr

/-- `CompressedNodeBasedGraphEdge` (partitioner.cpp lines 28-32): a `(source, target)`
pair of NodeIDs. -/
structure CompressedNodeBasedGraphEdge where
  source : Nat
  target : Nat
deriving DecidableEq, Repr

/-- `CompressedNodeBasedGraph` (partitioner.cpp lines 34-58): the two flat vectors
filled by the constructor. -/
structure CompressedNodeBasedGraph where
  edges : List CompressedNodeBasedGraphEdge
  coordinates : List Coordinate
deriving DecidableEq, Repr

/-- A compressed node-based graph file as seen through `storage::io::FileReader`.
Modelled from the spec: `storage/io.hpp` is not under `src/`. Fingerprint header,
declared `uint64 edge_count` and `uint64 node_count`, then the edge records and
coordinate records physically present in the file. -/
structure GraphFile where
  fingerprintOk : Bool
  edgeCount : Nat
  nodeCount : Nat
  edgeData : List CompressedNodeBasedGraphEdge
  coordData : List Coordinate

/-- `LoadCompressedNodeBasedGraph` (partitioner.cpp lines 60-67) together with the
`CompressedNodeBasedGraph` constructor (lines 36-54).
Modelled from the spec for the `FileReader` part: opening with
`FileReader::VerifyFingerprint` fails on a fingerprint mismatch; `ReadInto` after
`resize(num_edges)` / `resize(num_nodes)` reads exactly that many records and fails
on a short read (truncated file). No validation of edge endpoint values is
performed. -/
def LoadCompressedNodeBasedGraph (f : GraphFile) :
    Except LoadError CompressedNodeBasedGraph :=
  if f.fingerprintOk = false then .error .badFingerprint
  else if f.edgeData.length < f.edgeCount then .error .truncated
  else if f.coordData.length < f.nodeCount then .error .truncated
  else .ok ⟨f.edgeData.take f.edgeCount, f.coordData.take f.nodeCount⟩

/-- The `reverse_bits` lambda of `LogGeojson` (partitioner.cpp lines 153-160),
verbatim mask-and-shift steps on a 32-bit value. On `Nat` no wrap-around occurs:
every left shift operates on a value already masked low enough to stay below
`2 ^ 32`. -/
def reverse_bits (x0 : Nat) : Nat :=
  let x1 := ((x0 >>> 1) &&& 0x55555555) ||| ((x0 &&& 0x55555555) <<< 1)
  let x2 := ((x1 >>> 2) &&& 0x33333333) ||| ((x1 &&& 0x33333333) <<< 2)
  let x3 := ((x2 >>> 4) &&& 0x0f0f0f0f) ||| ((x2 &&& 0x0f0f0f0f) <<< 4)
  let x4 := ((x3 >>> 8) &&& 0x00ff00ff) ||| ((x3 &&& 0x00ff00ff) <<< 8)
  ((x4 >>> 16) &&& 0xffff) ||| ((x4 &&& 0xffff) <<< 16)

/-- The `get_level` lambda of `LogGeojson` (partitioner.cpp lines 147-151):
`level = log(lhs ^ rhs) / log(2.0)` truncated to an unsigned integer. The
double-precision logarithm quotient is modelled as the exact value
`floor(log2 (lhs XOR rhs))`, i.e. `Nat.log2`. -/
def get_level (lhs rhs : Nat) : Nat :=
  Nat.log2 (lhs ^^^ rhs)

/-- The interpreter's level computation as composed in `LogGeojson`
(partitioner.cpp lines 166-172): both stored identifiers are bit-reversed and
then fed to `get_level`. -/
def interpreterLevel (idA idB : Nat) : Nat :=
  get_level (reverse_bits idA) (reverse_bits idB)

/-- Body of the double loop of `LogGeojson` (partitioner.cpp lines 164-177) for a
single arc `(source, target)`: when the bit-reversed identifiers differ, the two
endpoint coordinates are appended to the boundary set of the computed level;
otherwise nothing is recorded. The per-level vectors are modelled as a function
from level to the list of recorded coordinates. -/
def processEdge (ids : Nat → Nat) (coords : Nat → Coordinate)
    (bv : Nat → List Coordinate) (source target : Nat) : Nat → List Coordinate :=
  let source_id := reverse_bits (ids source)
  let target_id := reverse_bits (ids target)
  if source_id ≠ target_id then
    fun l =>
      if l = get_level source_id target_id then
        bv l ++ [coords source, coords target]
      else bv l
  else bv

/-- The whole boundary-collection loop of `LogGeojson` over the graph's arcs. -/
def borderVertices (arcs : List (Nat × Nat)) (ids : Nat → Nat)
    (coords : Nat → Coordinate) : Nat → List Coordinate :=
  arcs.foldl (fun bv a => processEdge ids coords bv a.1 a.2) fun _ => []

/-- The bisection graph built by `makeBisectionGraph`.
Modelled from the spec: `partition/bisection_graph.hpp` is not under `src/`.
Section 4.2: one node entry per coordinate (`NumberOfNodes() == coordinates.size()`)
plus the arcs grouped by source node. -/
structure BisectionGraph where
  coordinates : List Coordinate
  arcs : List (Nat × Nat)

/-- `BisectionGraph::NumberOfNodes`.
Modelled from the spec: one node per coordinate. -/
def BisectionGraph.NumberOfNodes (g : BisectionGraph) : Nat :=
  g.coordinates.length

/-- The recursive bisection engine.
Modelled from the spec: `partition/recursive_bisection.hpp` is not under `src/`.
Section 4.3: starting from the whole node set at depth 0, a subset not below
`maximum_cell_size` is split by the (heuristic, here abstracted) cut into two
sides; every node of the second side receives identifier bit `depth`, and both
sides are recursed on at `depth + 1`. Recursion is given explicit fuel; the
identifier store is index-aligned and updated in place with `List.set`. -/
def runBisection (cut : List Nat → List Nat × List Nat) (maximum_cell_size : Nat) :
    Nat → Nat → List Nat → List Nat → List Nat
  | 0, _, _, ids => ids
  | fuel + 1, depth, subset, ids =>
    if subset.length ≤ maximum_cell_size then ids
    else
      let sides := cut subset
      let ids1 := sides.2.foldl (fun acc n => acc.set n (acc.getD n 0 ||| (1 <<< depth))) ids
      runBisection cut maximum_cell_size fuel (depth + 1) sides.2
        (runBisection cut maximum_cell_size fuel (depth + 1) sides.1 ids1)

/-- `RecursiveBisection::BisectionIDs` after eager construction on `graph`.
Modelled from the spec: construction computes the full partition over the whole
node set (identifiers start at 0) and stores one 32-bit identifier per node;
`BisectionIDs()` returns that index-aligned sequence. -/
def BisectionIDs (g : BisectionGraph) (cut : List Nat → List Nat × List Nat)
    (maximum_cell_size : Nat) : List Nat :=
  runBisection cut maximum_cell_size g.NumberOfNodes 0
    (List.range g.NumberOfNodes) (List.replicate g.NumberOfNodes 0)

theorem mask1_bit : ∀ i, i < 32 → Nat.testBit 0x55555555 i = decide (i % 2 = 0) := by decide

theorem mask2_bit : ∀ i, i < 32 → Nat.testBit 0x33333333 i = decide (i / 2 % 2 = 0) := by decide

theorem mask4_bit : ∀ i, i < 32 → Nat.testBit 0x0f0f0f0f i = decide (i / 4 % 2 = 0) := by decide

theorem mask8_bit : ∀ i, i < 32 → Nat.testBit 0x00ff00ff i = decide (i / 8 % 2 = 0) := by decide

theorem mask16_bit : ∀ i, i < 32 → Nat.testBit 0xffff i = decide (i / 16 % 2 = 0) := by decide

theorem butterfly1_lo (y i : Nat) (hi : i < 32) (h : i % 2 = 0) :
    (((y >>> 1) &&& 0x55555555) ||| ((y &&& 0x55555555) <<< 1)).testBit i = y.testBit (1 + i) := by
  have hm := mask1_bit i hi
  by_cases h2 : 1 ≤ i
  · have hm1 := mask1_bit (i - 1) (by omega)
    have h1 : (i - 1) % 2 = 1 := by omega
    simp [Nat.testBit_or, Nat.testBit_and, Nat.testBit_shiftRight, Nat.testBit_shiftLeft,
      hm, hm1, h, h1]
  · simp [Nat.testBit_or, Nat.testBit_and, Nat.testBit_shiftRight, Nat.testBit_shiftLeft,
      hm, h, h2]

theorem butterfly1_hi (y i : Nat) (hi : i < 32) (h : i % 2 = 1) :
    (((y >>> 1) &&& 0x55555555) ||| ((y &&& 0x55555555) <<< 1)).testBit i = y.testBit (i - 1) := by
  have hm := mask1_bit i hi
  have hm1 := mask1_bit (i - 1) (by omega)
  have h1 : (i - 1) % 2 = 0 := by omega
  have h2 : 1 ≤ i := by omega
  simp [Nat.testBit_or, Nat.testBit_and, Nat.testBit_shiftRight, Nat.testBit_shiftLeft,
    hm, hm1, h, h1, h2]

theorem butterfly2_lo (y i : Nat) (hi : i < 32) (h : i / 2 % 2 = 0) :
    (((y >>> 2) &&& 0x33333333) ||| ((y &&& 0x33333333) <<< 2)).testBit i = y.testBit (2 + i) := by
  have hm := mask2_bit i hi
  by_cases h2 : 2 ≤ i
  · have hm1 := mask2_bit (i - 2) (by omega)
    have h1 : (i - 2) / 2 % 2 = 1 := by omega
    simp [Nat.testBit_or, Nat.testBit_and, Nat.testBit_shiftRight, Nat.testBit_shiftLeft,
      hm, hm1, h, h1]
  · simp [Nat.testBit_or, Nat.testBit_and, Nat.testBit_shiftRight, Nat.testBit_shiftLeft,
      hm, h, h2]

theorem butterfly2_hi (y i : Nat) (hi : i < 32) (h : i / 2 % 2 = 1) :
    (((y >>> 2) &&& 0x33333333) ||| ((y &&& 0x33333333) <<< 2)).testBit i = y.testBit (i - 2) := by
  have hm := mask2_bit i hi
  have hm1 := mask2_bit (i - 2) (by omega)
  have h1 : (i - 2) / 2 % 2 = 0 := by omega
  have h2 : 2 ≤ i := by omega
  simp [Nat.testBit_or, Nat.testBit_and, Nat.testBit_shiftRight, Nat.testBit_shiftLeft,
    hm, hm1, h, h1, h2]

theorem butterfly4_lo (y i : Nat) (hi : i < 32) (h : i / 4 % 2 = 0) :
    (((y >>> 4) &&& 0x0f0f0f0f) ||| ((y &&& 0x0f0f0f0f) <<< 4)).testBit i = y.testBit (4 + i) := by
  have hm := mask4_bit i hi
  by_cases h2 : 4 ≤ i
  · have hm1 := mask4_bit (i - 4) (by omega)
    have h1 : (i - 4) / 4 % 2 = 1 := by omega
    simp [Nat.testBit_or, Nat.testBit_and, Nat.testBit_shiftRight, Nat.testBit_shiftLeft,
      hm, hm1, h, h1]
  · simp [Nat.testBit_or, Nat.testBit_and, Nat.testBit_shiftRight, Nat.testBit_shiftLeft,
      hm, h, h2]

theorem butterfly4_hi (y i : Nat) (hi : i < 32) (h : i / 4 % 2 = 1) :
    (((y >>> 4) &&& 0x0f0f0f0f) ||| ((y &&& 0x0f0f0f0f) <<< 4)).testBit i = y.testBit (i - 4) := by
  have hm := mask4_bit i hi
  have hm1 := mask4_bit (i - 4) (by omega)
  have h1 : (i - 4) / 4 % 2 = 0 := by omega
  have h2 : 4 ≤ i := by omega
  simp [Nat.testBit_or, Nat.testBit_and, Nat.testBit_shiftRight, Nat.testBit_shiftLeft,
    hm, hm1, h, h1, h2]

theorem butterfly8_lo (y i : Nat) (hi : i < 32) (h : i / 8 % 2 = 0) :
    (((y >>> 8) &&& 0x00ff00ff) ||| ((y &&& 0x00ff00ff) <<< 8)).testBit i = y.testBit (8 + i) := by
  have hm := mask8_bit i hi
  by_cases h2 : 8 ≤ i
  · have hm1 := mask8_bit (i - 8) (by omega)
    have h1 : (i - 8) / 8 % 2 = 1 := by omega
    simp [Nat.testBit_or, Nat.testBit_and, Nat.testBit_shiftRight, Nat.testBit_shiftLeft,
      hm, hm1, h, h1]
  · simp [Nat.testBit_or, Nat.testBit_and, Nat.testBit_shiftRight, Nat.testBit_shiftLeft,
      hm, h, h2]

theorem butterfly8_hi (y i : Nat) (hi : i < 32) (h : i / 8 % 2 = 1) :
    (((y >>> 8) &&& 0x00ff00ff) ||| ((y &&& 0x00ff00ff) <<< 8)).testBit i = y.testBit (i - 8) := by
  have hm := mask8_bit i hi
  have hm1 := mask8_bit (i - 8) (by omega)
  have h1 : (i - 8) / 8 % 2 = 0 := by omega
  have h2 : 8 ≤ i := by omega
  simp [Nat.testBit_or, Nat.testBit_and, Nat.testBit_shiftRight, Nat.testBit_shiftLeft,
    hm, hm1, h, h1, h2]

theorem butterfly16_lo (y i : Nat) (hi : i < 32) (h : i / 16 % 2 = 0) :
    (((y >>> 16) &&& 0xffff) ||| ((y &&& 0xffff) <<< 16)).testBit i = y.testBit (16 + i) := by
  have hm := mask16_bit i hi
  by_cases h2 : 16 ≤ i
  · have hm1 := mask16_bit (i - 16) (by omega)
    have h1 : (i - 16) / 16 % 2 = 1 := by omega
    simp [Nat.testBit_or, Nat.testBit_and, Nat.testBit_shiftRight, Nat.testBit_shiftLeft,
      hm, hm1, h, h1]
  · simp [Nat.testBit_or, Nat.testBit_and, Nat.testBit_shiftRight, Nat.testBit_shiftLeft,
      hm, h, h2]

theorem butterfly16_hi (y i : Nat) (hi : i < 32) (h : i / 16 % 2 = 1) :
    (((y >>> 16) &&& 0xffff) ||| ((y &&& 0xffff) <<< 16)).testBit i = y.testBit (i - 16) := by
  have hm := mask16_bit i hi
  have hm1 := mask16_bit (i - 16) (by omega)
  have h1 : (i - 16) / 16 % 2 = 0 := by omega
  have h2 : 16 ≤ i := by omega
  simp [Nat.testBit_or, Nat.testBit_and, Nat.testBit_shiftRight, Nat.testBit_shiftLeft,
    hm, hm1, h, h1, h2]

set_option maxHeartbeats 1000000 in
theorem reverse_bits_testBit (x i : Nat) (hi : i < 32) :
    (reverse_bits x).testBit i = x.testBit (31 - i) := by
  simp only [reverse_bits]
  interval_cases i <;>
    simp only [butterfly1_lo, butterfly1_hi, butterfly2_lo, butterfly2_hi, butterfly4_lo,
      butterfly4_hi, butterfly8_lo, butterfly8_hi, butterfly16_lo, butterfly16_hi,
      Nat.reduceAdd, Nat.reduceSub, Nat.reduceDiv, Nat.reduceMod, Nat.reduceLT, Nat.reduceLeDiff]

theorem reverse_bits_testBit_high (x i : Nat) (hi : 32 ≤ i) :
    (reverse_bits x).testBit i = false := by
  simp only [reverse_bits]
  have h1 : Nat.testBit 0xffff i = false :=
    Nat.testBit_lt_two_pow
      (lt_of_lt_of_le (show (0xffff : Nat) < 2 ^ 16 by norm_num)
        (Nat.pow_le_pow_right (by norm_num) (by omega)))
  have h2 : Nat.testBit 0xffff (i - 16) = false :=
    Nat.testBit_lt_two_pow
      (lt_of_lt_of_le (show (0xffff : Nat) < 2 ^ 16 by norm_num)
        (Nat.pow_le_pow_right (by norm_num) (by omega)))
  simp [Nat.testBit_or, Nat.testBit_and, Nat.testBit_shiftRight, Nat.testBit_shiftLeft, h1, h2]

theorem reverse_bits_lt (x : Nat) : reverse_bits x < 2 ^ 32 := by
  by_contra hc
  rcases Nat.ge_two_pow_implies_high_bit_true (Nat.le_of_not_lt hc) with ⟨i, hi, hb⟩
  rw [reverse_bits_testBit_high x i hi] at hb
  exact Bool.false_ne_true hb

theorem reverse_bits_involution (x : Nat) (hx : x < 2 ^ 32) :
    reverse_bits (reverse_bits x) = x := by
  apply Nat.eq_of_testBit_eq
  intro i
  by_cases hi : i < 32
  · rw [reverse_bits_testBit _ i hi, reverse_bits_testBit _ (31 - i) (by omega)]
    congr 1
    omega
  · rw [reverse_bits_testBit_high _ i (by omega)]
    exact (Nat.testBit_lt_two_pow
      (lt_of_lt_of_le hx (Nat.pow_le_pow_right (by norm_num) (by omega)))).symm

theorem reverse_bits_eq_of_spec (a r : Nat) (hr : r < 2 ^ 32)
    (hbits : ∀ i, i < 32 → r.testBit i = a.testBit (31 - i)) :
    r = reverse_bits a := by
  apply Nat.eq_of_testBit_eq
  intro i
  by_cases hi : i < 32
  · rw [hbits i hi, reverse_bits_testBit a i hi]
  · rw [reverse_bits_testBit_high a i (by omega)]
    exact Nat.testBit_lt_two_pow
      (lt_of_lt_of_le hr (Nat.pow_le_pow_right (by norm_num) (by omega)))

theorem log2_two_pow (n : Nat) : Nat.log2 (2 ^ n) = n := by
  rw [Nat.log2_eq_log_two]
  exact Nat.log_pow (by norm_num) n

theorem reverse_bits_xor (a b : Nat) :
    reverse_bits a ^^^ reverse_bits b = reverse_bits (a ^^^ b) := by
  apply Nat.eq_of_testBit_eq
  intro i
  by_cases hi : i < 32
  · rw [Nat.testBit_xor, reverse_bits_testBit a i hi, reverse_bits_testBit b i hi,
      reverse_bits_testBit (a ^^^ b) i hi, Nat.testBit_xor]
  · rw [Nat.testBit_xor, reverse_bits_testBit_high a i (by omega),
      reverse_bits_testBit_high b i (by omega), reverse_bits_testBit_high (a ^^^ b) i (by omega)]
    rfl

theorem foldl_set_length (f : List Nat → Nat → Nat) :
    ∀ (ns : List Nat) (ids : List Nat),
      (ns.foldl (fun acc n => acc.set n (f acc n)) ids).length = ids.length
  | [], _ => rfl
  | n :: ns, ids => by
    rw [List.foldl_cons, foldl_set_length f ns, List.length_set]

theorem runBisection_length (cut : List Nat → List Nat × List Nat) (m : Nat) :
    ∀ (fuel depth : Nat) (subset ids : List Nat),
      (runBisection cut m fuel depth subset ids).length = ids.length := by
  intro fuel
  induction fuel with
  | zero => intro depth subset ids; rfl
  | succ fuel ih =>
    intro depth subset ids
    rw [runBisection]
    split
    · rfl
    · rw [ih, ih, foldl_set_length (fun acc n => acc.getD n 0 ||| (1 <<< depth))]

/-- Claim C1, code evaluated at the failing input: loading a mapping file with
`count = 0` does yield two empty lookup tables, but `Lookup` on any EdgeID then
reaches the `BOOST_ASSERT(false)` line (a no-op in release builds) and returns the
sentinel pair `(SPECIAL_NODEID, SPECIAL_NODEID)` instead of reporting a typed
data-consistency error, contradicting the claim. -/
theorem lookup_miss_empty_mapping_returns_sentinel :
    LoadNodeBasedGraphToEdgeBasedGraphMapping ⟨true, 0, []⟩ = .ok ⟨[], []⟩ ∧
    Mapping.Lookup ⟨[], []⟩ 0 = ⟨SPECIAL_NODEID, SPECIAL_NODEID⟩ ∧
    Mapping.lookupAsserts ⟨[], []⟩ 0 = true :=
  ⟨rfl, rfl, rfl⟩

/-- Claim C2, counterexample: in the two-record file `(0,1,5,6), (2,3,7,5)` the
second record's `tail` EdgeID 5 collides with the first record's `head` EdgeID 5;
since `Lookup` consults `heads` first, `Lookup(5)` returns `(0,1)` and not the
pair `(2,3)` written for the second record, refuting the claim as stated. -/
theorem lookup_tail_shadowed_by_head :
    MappingRecord.mk 2 3 7 5 ∈ [MappingRecord.mk 0 1 5 6, MappingRecord.mk 2 3 7 5] ∧
    (loadRecords [MappingRecord.mk 0 1 5 6, MappingRecord.mk 2 3 7 5]).Lookup 5 =
      ⟨0, 1⟩ ∧
    (loadRecords [MappingRecord.mk 0 1 5 6, MappingRecord.mk 2 3 7 5]).Lookup 5 ≠
      ⟨2, 3⟩ := by
  refine ⟨by decide, by decide, by decide⟩

/-- Claim C2, amended: `Lookup(head)` returns the `(u, v)` pair of the first record
in file order carrying that `head` EdgeID, and `Lookup(tail)` returns the `(u, v)`
pair of the first record carrying that `tail` EdgeID provided the id does not also
occur as any record's `head` EdgeID (heads are consulted first, and
`std::unordered_map::insert` keeps the first insertion on duplicate keys). -/
theorem lookup_first_record_round_trip (rs : List MappingRecord) (e : Nat)
    (p : NodeBasedNodes) :
    (firstWithHead rs e = some p → (loadRecords rs).Lookup e = p) ∧
    ((∀ r ∈ rs, r.head ≠ e) → firstWithTail rs e = some p → (loadRecords rs).Lookup e = p) := by
  have hh : (loadRecords rs).heads.lookup e = firstWithHead rs e :=
    foldl_insertRecord_heads_lookup rs ⟨[], []⟩ e
  have ht : (loadRecords rs).tails.lookup e = firstWithTail rs e :=
    foldl_insertRecord_tails_lookup rs ⟨[], []⟩ e
  constructor
  · intro hfh
    unfold Mapping.Lookup
    rw [hh, hfh]
  · intro hnone hft
    unfold Mapping.Lookup
    rw [hh, firstWithHead_eq_none rs e hnone, ht, hft]

/-- Witness for the amended Claim C2 at the one-record file `(0,1,5,6)`. -/
theorem lookup_first_record_round_trip_witness :
    (loadRecords [MappingRecord.mk 0 1 5 6]).Lookup 5 = ⟨0, 1⟩ ∧
    (loadRecords [MappingRecord.mk 0 1 5 6]).Lookup 6 = ⟨0, 1⟩ :=
  ⟨(lookup_first_record_round_trip [MappingRecord.mk 0 1 5 6] 5 ⟨0, 1⟩).1 (by decide),
   (lookup_first_record_round_trip [MappingRecord.mk 0 1 5 6] 6 ⟨0, 1⟩).2 (by decide) (by decide)⟩

/-- Claim C3: for distinct 32-bit identifiers, the interpreter's level (both ids
bit-reversed by the source's mask-and-shift `reverse_bits`, then `get_level`)
equals `floor(log2(reverse_bits(id_a) XOR reverse_bits(id_b)))` where the
reversal is the spec's one, characterised abstractly: any `ra`, `rb` below
`2 ^ 32` whose bit `i` equals bit `31 - i` of the corresponding identifier. The
double-precision logarithm of the source is modelled as exact `floor(log2)`. -/
theorem interpreter_level_matches_spec_formula (idA idB ra rb : Nat)
    (hA : idA < 2 ^ 32) (hB : idB < 2 ^ 32) (hne : idA ≠ idB)
    (hra : ra < 2 ^ 32) (hrb : rb < 2 ^ 32)
    (hraBits : ∀ i, i < 32 → ra.testBit i = idA.testBit (31 - i))
    (hrbBits : ∀ i, i < 32 → rb.testBit i = idB.testBit (31 - i)) :
    interpreterLevel idA idB = Nat.log2 (ra ^^^ rb) := by
  rw [reverse_bits_eq_of_spec idA ra hra hraBits, reverse_bits_eq_of_spec idB rb hrb hrbBits]
  rfl

/-- Witness for Claim C3 at identifiers 0 and 1 (spec reversals 0 and `2 ^ 31`). -/
theorem interpreter_level_matches_spec_formula_witness :
    interpreterLevel 0 1 = Nat.log2 (0 ^^^ 2147483648) :=
  interpreter_level_matches_spec_formula 0 1 0 2147483648 (by decide) (by decide)
    (by decide) (by decide) (by decide) (by decide) (by decide)

/-- Claim C4, counterexample: the stored identifiers 0 and 1 differ exactly in
bit 0 (the least-significant original split bit), yet the interpreter computes
level 31, not 0: the bit reversal maps the shallowest split bit to the most
significant position. -/
theorem ids_differ_in_bit0_level_not_zero :
    (0 : Nat) ^^^ 1 = 1 ∧ interpreterLevel 0 1 = 31 ∧ (31 : Nat) ≠ 0 := by
  refine ⟨by decide, ?_, by decide⟩
  show get_level (reverse_bits 0) (reverse_bits 1) = 31
  unfold get_level
  have h : reverse_bits 0 ^^^ reverse_bits 1 = 2 ^ 31 := by decide
  rw [h, log2_two_pow]

/-- Claim C4, amended: for every pair of 32-bit identifiers that differ only in
bit 0 of the stored identifier, the level computed by the interpreter is 31 (the
reversal puts the shallowest split bit at the top), not 0. -/
theorem ids_differ_in_bit0_level_is_31 (idA idB : Nat) (hA : idA < 2 ^ 32)
    (hB : idB < 2 ^ 32) (h : idA ^^^ idB = 1) :
    interpreterLevel idA idB = 31 := by
  show get_level (reverse_bits idA) (reverse_bits idB) = 31
  unfold get_level
  rw [reverse_bits_xor, h]
  have h1 : reverse_bits 1 = 2 ^ 31 := by decide
  rw [h1, log2_two_pow]

/-- Witness for the amended Claim C4 at identifiers 0 and 1. -/
theorem ids_differ_in_bit0_level_is_31_witness : interpreterLevel 0 1 = 31 :=
  ids_differ_in_bit0_level_is_31 0 1 (by decide) (by decide) (by decide)

/-- Claim C5: an arc whose endpoints carry equal partition identifiers is treated
as interior by `LogGeojson`: the loop body records nothing for it at any level
(and `get_level` is never consulted), leaving every level's boundary set
unchanged. -/
theorem equal_ids_no_boundary_contribution (ids : Nat → Nat)
    (coords : Nat → Coordinate) (bv : Nat → List Coordinate) (source target : Nat)
    (h : ids source = ids target) :
    processEdge ids coords bv source target = bv := by
  simp [processEdge, h]

/-- Witness for Claim C5: a concrete arc with equal identifiers contributes
nothing. -/
theorem equal_ids_no_boundary_contribution_witness :
    processEdge (fun _ => 7) (fun _ => ⟨0, 0⟩) (fun _ => []) 0 1 = fun _ => [] :=
  equal_ids_no_boundary_contribution (fun _ => 7) (fun _ => ⟨0, 0⟩) (fun _ => []) 0 1 rfl

/-- Claim C6: for a well-formed graph file (valid fingerprint, payloads matching
the declared counts), `LoadCompressedNodeBasedGraph` succeeds with exactly the
declared number of edge and coordinate records, in file order. The edge payload
is universally quantified with no bound on endpoint values: no `< node_count`
validation is performed. -/
theorem load_graph_success_exact_counts (f : GraphFile) (hf : f.fingerprintOk = true)
    (he : f.edgeData.length = f.edgeCount) (hn : f.coordData.length = f.nodeCount) :
    LoadCompressedNodeBasedGraph f = .ok ⟨f.edgeData, f.coordData⟩ := by
  unfold LoadCompressedNodeBasedGraph
  rw [hf, ← he, ← hn]
  simp

/-- Witness for Claim C6: a file whose single edge has endpoints 5 and 7, far
beyond `node_count = 1`, still loads successfully — endpoint bounds are not
validated. -/
theorem load_graph_success_exact_counts_witness :
    LoadCompressedNodeBasedGraph ⟨true, 1, 1, [⟨5, 7⟩], [⟨0, 0⟩]⟩ =
      .ok ⟨[⟨5, 7⟩], [⟨0, 0⟩]⟩ :=
  load_graph_success_exact_counts ⟨true, 1, 1, [⟨5, 7⟩], [⟨0, 0⟩]⟩ rfl rfl rfl

/-- Claim C7: a graph file with a corrupted fingerprint, or truncated so that a
declared count exceeds the readable records, makes `LoadCompressedNodeBasedGraph`
fail with a format/IO error; no (partially populated) graph is returned. -/
theorem load_graph_failure_no_partial_graph (f : GraphFile)
    (h : f.fingerprintOk = false ∨ f.edgeData.length < f.edgeCount ∨
      f.coordData.length < f.nodeCount) :
    ∃ e, LoadCompressedNodeBasedGraph f = .error e := by
  by_cases hf : f.fingerprintOk = false
  · exact ⟨.badFingerprint, by simp [LoadCompressedNodeBasedGraph, hf]⟩
  · rcases h with h | h | h
    · exact absurd h hf
    · exact ⟨.truncated, by simp [LoadCompressedNodeBasedGraph, hf, h]⟩
    · by_cases hel : f.edgeData.length < f.edgeCount
      · exact ⟨.truncated, by simp [LoadCompressedNodeBasedGraph, hf, hel]⟩
      · exact ⟨.truncated, by simp [LoadCompressedNodeBasedGraph, hf, hel, h]⟩

/-- Witness for Claim C7 at a file with a corrupted fingerprint. -/
theorem load_graph_failure_no_partial_graph_witness :
    ∃ e, LoadCompressedNodeBasedGraph ⟨false, 0, 0, [], []⟩ = .error e :=
  load_graph_failure_no_partial_graph ⟨false, 0, 0, [], []⟩ (Or.inl rfl)

/-- Claim C8: when an EdgeID is a key of both tables, `Lookup` consults `heads`
first and returns the heads entry. -/
theorem lookup_checks_heads_first (m : Mapping) (e : Nat) (p q : NodeBasedNodes)
    (hh : m.heads.lookup e = some p) (ht : m.tails.lookup e = some q) :
    m.Lookup e = p := by
  unfold Mapping.Lookup
  rw [hh]

/-- Witness for Claim C8: key 5 present in both tables with different pairs; the
heads pair is returned. -/
theorem lookup_checks_heads_first_witness :
    Mapping.Lookup ⟨[(5, ⟨0, 1⟩)], [(5, ⟨2, 3⟩)]⟩ 5 = ⟨0, 1⟩ :=
  lookup_checks_heads_first ⟨[(5, ⟨0, 1⟩)], [(5, ⟨2, 3⟩)]⟩ 5 ⟨0, 1⟩ ⟨2, 3⟩
    (by decide) (by decide)

/-- Claim C9: the identifier sequence returned by `BisectionIDs()` after
construction has exactly `NumberOfNodes()` entries, for every graph, cut
heuristic and cell-size parameter: the store starts as one zero identifier per
node and every bit assignment preserves its length. -/
theorem bisection_ids_size_eq_number_of_nodes (g : BisectionGraph)
    (cut : List Nat → List Nat × List Nat) (maximum_cell_size : Nat) :
    (BisectionIDs g cut maximum_cell_size).length = g.NumberOfNodes := by
  unfold BisectionIDs
  rw [runBisection_length, List.length_replicate]

/-- Claim C10: the source's mask-and-shift `reverse_bits` moves bit `i` of a
32-bit value to bit `31 - i` of the result, and is consequently an involution on
values below `2 ^ 32`. -/
theorem reverse_bits_reverses_and_involutive (x : Nat) (hx : x < 2 ^ 32) :
    (∀ i, i < 32 → (reverse_bits x).testBit i = x.testBit (31 - i)) ∧
    reverse_bits (reverse_bits x) = x :=
  ⟨fun i hi => reverse_bits_testBit x i hi, reverse_bits_involution x hx⟩

/-- Witness for Claim C10 at `x = 3735928559`. -/
theorem reverse_bits_reverses_and_involutive_witness :
    (∀ i, i < 32 →
      (reverse_bits 3735928559).testBit i = (3735928559 : Nat).testBit (31 - i)) ∧
    reverse_bits (reverse_bits 3735928559) = 3735928559 :=
  reverse_bits_reverses_and_involutive 3735928559 (by decide)

end OsrmPartition
